import Mathlib

/-!
Verification of the tcp_killer repository (src/tcp_killer.py) against its
natural-language specification. The Python source is shallowly embedded:
pure string processing becomes Lean functions on `String` / `List Char`,
Python exceptions become `Except`, and the Frida session control flow of
`_shutdown_sockfd` becomes an explicit outcome function over an environment
describing how each external call behaves.
-/

namespace TcpKiller

/-- Model of Python `str.startswith(c)` for a single character `c`, applied to a
line given as a character list. -/
def startsWith1 (c : Char) : List Char → Bool
  | [] => false
  | c' :: _ => c' == c

/-- Strips leading and trailing whitespace, as Python `int(...)` does before
parsing its argument. -/
def pyStrip (cs : List Char) : List Char :=
  ((cs.dropWhile Char.isWhitespace).reverse.dropWhile Char.isWhitespace).reverse

/-- Numeric value of a decimal digit character. -/
def digitVal (c : Char) : Nat := c.toNat - '0'.toNat

/-- Parses a nonempty all-digit character list as a natural number, else fails. -/
def decDigits? (cs : List Char) : Option Nat :=
  if cs.isEmpty then none
  else if cs.all Char.isDigit then
    some (cs.foldl (fun a c => a * 10 + digitVal c) 0)
  else none

/-- Model of Python `int(s)` on a decimal string: strip whitespace, optional
sign, then digits; any other input raises `ValueError` (here `.error ()`).
Digit-group underscores and non-ASCII digits, which `lsof` never emits, are not
modelled. -/
def pyInt (s : String) : Except Unit Int :=
  match pyStrip s.toList with
  | '-' :: rest =>
    match decDigits? rest with
    | some n => .ok (-(n : Int))
    | none => .error ()
  | '+' :: rest =>
    match decDigits? rest with
    | some n => .ok (n : Int)
    | none => .error ()
  | cs =>
    match decDigits? cs with
    | some n => .ok (n : Int)
    | none => .error ()

/-- Splits a character list at the LAST occurrence of `sep`, returning the
parts before and after it; `none` when `sep` does not occur. This is Python
`s.rsplit(sep, 1)` restricted to the case the source relies on, where the
two-element result is unpacked (a missing separator raises `ValueError`). -/
def splitLast (sep : Char) : List Char → Option (List Char × List Char)
  | [] => none
  | c :: cs =>
    match splitLast sep cs with
    | some (l, r) => some (c :: l, r)
    | none => if c = sep then some ([], cs) else none

/-- Model of Python `s.split("->")`: splits at every occurrence of the
two-character separator `->`, scanning left to right. -/
def splitArrow : List Char → List (List Char)
  | [] => [[]]
  | '-' :: '>' :: rest => [] :: splitArrow rest
  | c :: rest =>
    match splitArrow rest with
    | h :: t => (c :: h) :: t
    | [] => [[c]]

/-- The `ConnectionInfo` class of tcp_killer.py. The pid, fd and uid fields
hold `Option Int` because the Python loop initialises them to `None` and an
endpoint line may be reached before any of them was assigned. -/
structure ConnectionInfo where
  local_ip : String
  local_port : Int
  remote_ip : String
  remote_port : Int
  pid : Option Int
  fd : Option Int
  uid : Option Int
deriving Repr, DecidableEq

/-- The check `local_addr is None or local_ip == local_addr` (and its remote
counterpart) from the filter condition in `_find_socket_fds`. -/
def addrCheck (crit : Option String) (s : List Char) : Bool :=
  match crit with
  | none => true
  | some a => (⟨s⟩ : String) == a

/-- The check `local_port is None or int(local_port_str) == local_port` (and
its remote counterpart): when a port criterion is present, `int(...)` runs and
may raise. -/
def portCheck (crit : Option Int) (s : List Char) : Except Unit Bool :=
  match crit with
  | none => .ok true
  | some p =>
    match pyInt ⟨s⟩ with
    | .error e => .error e
    | .ok v => .ok (v == p)

/-- The four-way `and` condition of `_find_socket_fds`, with Python
short-circuit evaluation: each conjunct is evaluated only if all earlier
conjuncts were true, so an `int(...)` failure in a later conjunct is only
raised when reached. -/
def evalCond (la : Option String) (lp : Option Int) (ra : Option String)
    (rp : Option Int) (lip lps rip rps : List Char) : Except Unit Bool :=
  if addrCheck la lip then
    match portCheck lp lps with
    | .error e => .error e
    | .ok false => .ok false
    | .ok true =>
      if addrCheck ra rip then portCheck rp rps
      else .ok false
  else .ok false

/-- Construction of `ConnectionInfo(local_ip, int(local_port_str), remote_ip,
int(remote_port_str), pid, fd, uid)`: both `int(...)` calls run and may
raise. -/
def buildRecord (pid fd uid : Option Int) (lip lps rip rps : List Char) :
    Except Unit ConnectionInfo :=
  match pyInt ⟨lps⟩ with
  | .error e => .error e
  | .ok lv =>
    match pyInt ⟨rps⟩ with
    | .error e => .error e
    | .ok rv => .ok ⟨⟨lip⟩, lv, ⟨rip⟩, rv, pid, fd, uid⟩

/-- Handling of one `n`-tagged line body in `_find_socket_fds`:
`split("->")` unpacked into exactly two sides, `rsplit(":", 1)` on each side,
then the filter condition and, when it holds, record construction. Any failed
unpacking or `int(...)` raises (`.error`). Returns `some r` when a record is
emitted, `none` when the line is filtered out. -/
def handleN (la : Option String) (lp : Option Int) (ra : Option String)
    (rp : Option Int) (pid fd uid : Option Int) (t : List Char) :
    Except Unit (Option ConnectionInfo) :=
  match splitArrow t with
  | [localSide, remoteSide] =>
    match splitLast ':' localSide with
    | none => .error ()
    | some (lip, lps) =>
      match splitLast ':' remoteSide with
      | none => .error ()
      | some (rip, rps) =>
        match evalCond la lp ra rp lip lps rip rps with
        | .error e => .error e
        | .ok true =>
          match buildRecord pid fd uid lip lps rip rps with
          | .error e => .error e
          | .ok r => .ok (some r)
        | .ok false => .ok none
  | _ => .error ()

/-- The line loop of `_find_socket_fds`: `pid, fd, uid` start as `None`; a
`p`/`f`/`u` line assigns the corresponding register via `int(line[1:])`; an
`n` line is handled by `handleN` and, when a record results, it is appended to
the output; every other line is ignored. Nothing resets the registers after an
emission. The returned list is the emission-ordered record list. -/
def goFind (la : Option String) (lp : Option Int) (ra : Option String)
    (rp : Option Int) :
    Option Int → Option Int → Option Int → List (List Char) →
    Except Unit (List ConnectionInfo)
  | _, _, _, [] => .ok []
  | pid, fd, uid, line :: rest =>
    if startsWith1 'p' line then
      match pyInt ⟨line.drop 1⟩ with
      | .error e => .error e
      | .ok v => goFind la lp ra rp (some v) fd uid rest
    else if startsWith1 'f' line then
      match pyInt ⟨line.drop 1⟩ with
      | .error e => .error e
      | .ok v => goFind la lp ra rp pid (some v) uid rest
    else if startsWith1 'u' line then
      match pyInt ⟨line.drop 1⟩ with
      | .error e => .error e
      | .ok v => goFind la lp ra rp pid fd (some v) rest
    else if startsWith1 'n' line then
      match handleN la lp ra rp pid fd uid (line.drop 1) with
      | .error e => .error e
      | .ok (some r) =>
        match goFind la lp ra rp pid fd uid rest with
        | .error e => .error e
        | .ok l => .ok (r :: l)
      | .ok none => goFind la lp ra rp pid fd uid rest
    else goFind la lp ra rp pid fd uid rest

/-- The `_find_socket_fds` function of tcp_killer.py, taking the lsof output
already split into lines (the subprocess itself is the external inventory
facility; its output is the input of this model). -/
def find_socket_fds (la : Option String) (lp : Option Int) (ra : Option String)
    (rp : Option Int) (output : List String) :
    Except Unit (List ConnectionInfo) :=
  goFind la lp ra rp none none none (output.map String.toList)

/-- Python truthiness of the `sockfd` value in `tcp_kill`: `if not sockfd:`
treats both `None` and `0` as falsy. -/
def pyTruthy : Option Int → Bool
  | none => false
  | some n => n != 0

/-- The target-resolution step of `tcp_kill` (lines 249 to 264): take the
first enumerated connection when present, then `if not sockfd: raise OSError`
with a message that appends a root hint exactly when `os.geteuid() != 0`; the
effective uid is a parameter because it is ambient state of the caller. On
success the chosen pid and fd are returned. -/
def tcp_kill_resolve (connections : List ConnectionInfo) (euid : Int) :
    Except String (Option Int × Option Int) :=
  match connections with
  | [] =>
    .error ("Socket not found for connection." ++
      (if euid != 0 then " Try running as root." else ""))
  | c :: _ =>
    if pyTruthy c.fd then .ok (c.pid, c.fd)
    else
      .error ("Socket not found for connection." ++
        (if euid != 0 then " Try running as root." else ""))

/-- Model of the `shutdownSocket` export of `_FRIDA_SCRIPT`: symbol resolution
is abstracted to whether any ladder strategy produced an address; on success
the bound native function is called as `shutdown(sockfd, 2)` and its result is
RETURNED as-is, a `-1` result only producing a `send`-type diagnostic; when no
address was found the script throws, which surfaces as an RPC error string. -/
def shutdownSocketScript (resolved : Bool) (native : Int → Int → Int)
    (sockfd : Int) : Except String Int :=
  if resolved then .ok (native sockfd 2)
  else .error "Frida script error: Could not find shutdown function in target process"

/-- A message delivered on the session channel to `on_message`: Frida `error`
messages carry a description, `send` messages carry a payload that is only
printed in verbose mode. -/
inductive Message
  | error (description : String)
  | send (payload : String)
deriving Repr, DecidableEq

/-- An exception raised by `script.load()` or by the RPC invocation:
either a `frida.TransportError` with a message, or any other exception
(caught by the generic `except Exception` branch). -/
inductive FridaErr
  | transport (msg : String)
  | other (msg : String)
deriving Repr, DecidableEq

/-- The externally observable calls `_shutdown_sockfd` makes on the session. -/
inductive Event
  | attach
  | createScript
  | load
  | invoke
  | detach
deriving Repr, DecidableEq, BEq

/-- How one execution of `_shutdown_sockfd` terminates: normal return, the
`session.create_script` exception propagating, a re-raised
`frida.TransportError`, or the final `raise RuntimeError(js_error["error"])`. -/
inductive Outcome
  | success
  | raisedCreate (msg : String)
  | raisedTransport (msg : String)
  | raisedRuntime (msg : String)
deriving Repr, DecidableEq

/-- The environment of one `_shutdown_sockfd` execution: how each external
call behaves. `createScriptRaises` covers `session.create_script` (and the
listener registration), which sit before the `try` block; `loadRaises` is for
`script.load()`; `invokeResult` is the RPC call outcome; `messages` are the
channel messages seen by `on_message`; `detachRaises` is an exception raised
by `session.detach()`. -/
structure Env where
  createScriptRaises : Option String
  loadRaises : Option FridaErr
  invokeResult : Except FridaErr Int
  messages : List Message
  detachRaises : Option String

/-- The `js_error` dictionary after `on_message` processed the channel
messages: each `error`-type message overwrites the stored description, `send`
messages leave it untouched. -/
def lastJsError (msgs : List Message) : Option String :=
  msgs.foldl
    (fun acc m =>
      match m with
      | .error d => some d
      | .send _ => acc) none

/-- Model of `try: session.detach() except: pass` in the `finally` block:
detach is called exactly once and any exception it raises is caught and
discarded, so both branches contribute only the detach event. -/
def detachGuarded (detachRaises : Option String) : List Event :=
  match detachRaises with
  | some _ => [Event.detach]
  | none => [Event.detach]

/-- The exception handling after the `try` body of `_shutdown_sockfd`:
a `frida.TransportError` is re-raised unless its text is exactly
"the connection is closed"; any other exception stores its text in
`js_error["error"]`; finally `if "error" in js_error: raise RuntimeError`. -/
def afterBody (jsError : Option String) : Option FridaErr → Outcome
  | some (.transport m) =>
    if m != "the connection is closed" then .raisedTransport m
    else
      match jsError with
      | some e => .raisedRuntime e
      | none => .success
  | some (.other m) => .raisedRuntime m
  | none =>
    match jsError with
    | some e => .raisedRuntime e
    | none => .success

/-- One execution of `_shutdown_sockfd` (lines 267 to 316): `frida.attach`,
then `session.create_script` OUTSIDE the `try` block (a raise there propagates
with no detach), then the `try` body running `script.load()` and the RPC
invocation, the `finally` block detaching exactly once with its own errors
swallowed, and the closing `js_error` check. Returns the event trace and the
outcome. -/
def runShutdown (env : Env) : List Event × Outcome :=
  match env.createScriptRaises with
  | some m => ([Event.attach], Outcome.raisedCreate m)
  | none =>
    match env.loadRaises with
    | some e =>
      ([Event.attach, Event.createScript, Event.load] ++
         detachGuarded env.detachRaises,
       afterBody (lastJsError env.messages) (some e))
    | none =>
      match env.invokeResult with
      | .error e =>
        ([Event.attach, Event.createScript, Event.load, Event.invoke] ++
           detachGuarded env.detachRaises,
         afterBody (lastJsError env.messages) (some e))
      | .ok _ =>
        ([Event.attach, Event.createScript, Event.load, Event.invoke] ++
           detachGuarded env.detachRaises,
         afterBody (lastJsError env.messages) none)

/-- Lifts the result of the injected script into the RPC call outcome seen by
the Python side: a script throw surfaces as a generic exception whose text is
stored in `js_error`, a returned value (including `-1`) is just the result. -/
def invokeOfScript (r : Except String Int) : Except FridaErr Int :=
  match r with
  | .ok v => .ok v
  | .error m => .error (.other m)

/-- The record-level conjunction of the four optional exact-match criteria, as
described by the spec: an absent field imposes no constraint. -/
def matchesCrit (la : Option String) (lp : Option Int) (ra : Option String)
    (rp : Option Int) (r : ConnectionInfo) : Bool :=
  (match la with | none => true | some a => r.local_ip == a) &&
  ((match lp with | none => true | some p => r.local_port == p) &&
   ((match ra with | none => true | some a => r.remote_ip == a) &&
    (match rp with | none => true | some p => r.remote_port == p)))

/-- The most recently observed value of a tagged register over the lines seen
so far: the last line starting with `tag` whose body parses as an integer
determines the value; `none` when no such line occurred. -/
def lastTagged (tag : Char) (seen : List (List Char)) : Option Int :=
  seen.foldl
    (fun acc l =>
      if startsWith1 tag l then
        match pyInt ⟨l.drop 1⟩ with
        | .ok v => some v
        | .error _ => acc
      else acc) none

/-- Parses the body of an endpoint line into (local address, local port,
remote address, remote port): one `->` split, a last-colon split on each side,
and integer ports. -/
def parseEndpoint (t : List Char) : Option (String × Int × String × Int) :=
  match splitArrow t with
  | [ls, rs] =>
    match splitLast ':' ls, splitLast ':' rs with
    | some (lip, lps), some (rip, rps) =>
      match pyInt ⟨lps⟩, pyInt ⟨rps⟩ with
      | .ok lv, .ok rv => some (⟨lip⟩, lv, ⟨rip⟩, rv)
      | _, _ => none
    | _, _ => none
  | _ => .none

/-- A line parses without raising in the no-criteria run: tagged integer lines
carry integers, endpoint lines split and parse fully, all other lines are
ignored and never raise. -/
def lineWF (line : List Char) : Bool :=
  if startsWith1 'p' line then (pyInt ⟨line.drop 1⟩).isOk
  else if startsWith1 'f' line then (pyInt ⟨line.drop 1⟩).isOk
  else if startsWith1 'u' line then (pyInt ⟨line.drop 1⟩).isOk
  else if startsWith1 'n' line then (parseEndpoint (line.drop 1)).isSome
  else true

/-- Every line of the inventory output parses without raising. -/
def wellFormed (lines : List (List Char)) : Bool := lines.all lineWF

/-- Same, over the output as a list of strings. -/
def wellFormedOutput (output : List String) : Bool :=
  wellFormed (output.map String.toList)

/-- Modelled from the amended claim C1: a record is produced at every endpoint
line, its pid, fd and uid being the most recently observed tagged values
anywhere earlier in the stream, with no reset at emissions. Stated as a
rescan: the emitting recursion carries the list of already seen lines and
recomputes the latest tagged values from it at each endpoint line. -/
def specRecAux (seen : List (List Char)) : List (List Char) → List ConnectionInfo
  | [] => []
  | line :: rest =>
    if startsWith1 'n' line then
      (match parseEndpoint (line.drop 1) with
       | some (lip, lv, rip, rv) =>
         [⟨lip, lv, rip, rv, lastTagged 'p' seen, lastTagged 'f' seen,
           lastTagged 'u' seen⟩]
       | none => []) ++ specRecAux (seen ++ [line]) rest
    else specRecAux (seen ++ [line]) rest

/-- The carryover enumeration semantics over a full output. -/
def specEmitCarryover (output : List String) : List ConnectionInfo :=
  specRecAux [] (output.map String.toList)

/-! Helper lemmas about the splitting primitives. -/

theorem splitLast_of_not_mem (sep : Char) (l : List Char) (h : sep ∉ l) :
    splitLast sep l = none := by
  induction l with
  | nil => rfl
  | cons c cs ih =>
    simp only [List.mem_cons, not_or] at h
    have h1 : ¬ c = sep := fun hc => h.1 hc.symm
    simp [splitLast, ih h.2, h1]

theorem splitLast_append (sep : Char) (u v : List Char) (hv : sep ∉ v) :
    splitLast sep (u ++ sep :: v) = some (u, v) := by
  induction u with
  | nil => simp [splitLast, splitLast_of_not_mem sep v hv]
  | cons c cs ih => simp [splitLast, ih]

theorem splitArrow_no_dash (u : List Char) (h : '-' ∉ u) : splitArrow u = [u] := by
  induction u with
  | nil => rfl
  | cons c cs ih =>
    simp only [List.mem_cons, not_or] at h
    rw [splitArrow.eq_def]
    split
    · rename_i heq
      exact absurd heq (by simp)
    · rename_i heq
      exact absurd (List.cons.inj heq).1.symm h.1
    · rename_i heq
      obtain ⟨h1, h2⟩ := List.cons.inj heq
      subst h1; subst h2
      rw [ih h.2]

theorem splitArrow_append (u v : List Char) (hu : '-' ∉ u) (hv : '-' ∉ v) :
    splitArrow (u ++ '-' :: '>' :: v) = [u, v] := by
  induction u with
  | nil =>
    rw [List.nil_append,
      show splitArrow ('-' :: '>' :: v) = [] :: splitArrow v from rfl,
      splitArrow_no_dash v hv]
  | cons c cs ih =>
    simp only [List.mem_cons, not_or] at hu
    rw [List.cons_append, splitArrow.eq_def]
    split
    · rename_i heq
      exact absurd heq (by simp)
    · rename_i heq
      exact absurd (List.cons.inj heq).1.symm hu.1
    · rename_i heq
      obtain ⟨h1, h2⟩ := List.cons.inj heq
      subst h1; subst h2
      rw [ih hu.2]

/-! Characterization of a single endpoint line. -/

theorem evalCond_none (lip lps rip rps : List Char) :
    evalCond none none none none lip lps rip rps = .ok true := rfl

theorem handleN_none_eq (pid fd uid : Option Int) (t : List Char) :
    handleN none none none none pid fd uid t =
      (match parseEndpoint t with
       | some (lip, lv, rip, rv) =>
         .ok (some ⟨lip, lv, rip, rv, pid, fd, uid⟩)
       | none => .error ()) := by
  cases hsa : splitArrow t with
  | nil => simp [handleN, parseEndpoint, hsa]
  | cons ls tl =>
    cases tl with
    | nil => simp [handleN, parseEndpoint, hsa]
    | cons rs tl2 =>
      cases tl2 with
      | cons x xs => simp [handleN, parseEndpoint, hsa]
      | nil =>
        cases hsl : splitLast ':' ls with
        | none => simp [handleN, parseEndpoint, hsa, hsl]
        | some pr =>
          obtain ⟨lip, lps⟩ := pr
          cases hsr : splitLast ':' rs with
          | none => simp [handleN, parseEndpoint, hsa, hsl, hsr]
          | some pr2 =>
            obtain ⟨rip, rps⟩ := pr2
            cases hlv : pyInt ⟨lps⟩ with
            | error e =>
              simp [handleN, parseEndpoint, hsa, hsl, hsr, evalCond_none,
                buildRecord, hlv]
            | ok lv =>
              cases hrv : pyInt ⟨rps⟩ with
              | error e =>
                simp [handleN, parseEndpoint, hsa, hsl, hsr, evalCond_none,
                  buildRecord, hlv, hrv]
              | ok rv =>
                simp [handleN, parseEndpoint, hsa, hsl, hsr, evalCond_none,
                  buildRecord, hlv, hrv]

theorem handleN_none_not_none (pid fd uid : Option Int) (t : List Char) :
    handleN none none none none pid fd uid t ≠ .ok none := by
  rw [handleN_none_eq]
  cases h : parseEndpoint t with
  | none => simp
  | some q =>
    obtain ⟨lip, lv, rip, rv⟩ := q
    simp

theorem portCheck_val (lp : Option Int) (s : List Char) (v : Int)
    (h : pyInt ⟨s⟩ = .ok v) :
    portCheck lp s
      = .ok (match lp with | none => true | some p => v == p) := by
  cases lp with
  | none => rfl
  | some p => simp [portCheck, h]

theorem evalCond_ok (la : Option String) (lp : Option Int) (ra : Option String)
    (rp : Option Int) (lip lps rip rps : List Char) (b2 b4 : Bool)
    (h2 : portCheck lp lps = .ok b2) (h4 : portCheck rp rps = .ok b4) :
    evalCond la lp ra rp lip lps rip rps
      = .ok (addrCheck la lip && (b2 && (addrCheck ra rip && b4))) := by
  unfold evalCond
  cases hb1 : addrCheck la lip
  · simp
  · rw [h2]
    cases b2
    · simp
    · cases hb3 : addrCheck ra rip
      · simp
      · simp [h4]

theorem matchesCrit_record (la : Option String) (lp : Option Int)
    (ra : Option String) (rp : Option Int) (lip rip : List Char)
    (lv rv : Int) (pid fd uid : Option Int) :
    matchesCrit la lp ra rp ⟨⟨lip⟩, lv, ⟨rip⟩, rv, pid, fd, uid⟩
      = (addrCheck la lip &&
         ((match lp with | none => true | some p => lv == p) &&
          (addrCheck ra rip &&
           (match rp with | none => true | some p => rv == p)))) := by
  cases la <;> cases lp <;> cases ra <;> cases rp <;> rfl

theorem evalCond_eq_matches (la : Option String) (lp : Option Int)
    (ra : Option String) (rp : Option Int) (lip lps rip rps : List Char)
    (lv rv : Int) (pid fd uid : Option Int)
    (hlv : pyInt ⟨lps⟩ = .ok lv) (hrv : pyInt ⟨rps⟩ = .ok rv) :
    evalCond la lp ra rp lip lps rip rps
      = .ok (matchesCrit la lp ra rp ⟨⟨lip⟩, lv, ⟨rip⟩, rv, pid, fd, uid⟩) := by
  rw [evalCond_ok la lp ra rp lip lps rip rps _ _
        (portCheck_val lp lps lv hlv) (portCheck_val rp rps rv hrv),
      matchesCrit_record]

theorem handleN_filter (la : Option String) (lp : Option Int)
    (ra : Option String) (rp : Option Int) (pid fd uid : Option Int)
    (t : List Char) (r : ConnectionInfo)
    (hn : handleN none none none none pid fd uid t = .ok (some r)) :
    handleN la lp ra rp pid fd uid t
      = .ok (if matchesCrit la lp ra rp r then some r else none) := by
  cases hsa : splitArrow t with
  | nil => simp [handleN, hsa] at hn
  | cons ls tl =>
    cases tl with
    | nil => simp [handleN, hsa] at hn
    | cons rs tl2 =>
      cases tl2 with
      | cons x xs => simp [handleN, hsa] at hn
      | nil =>
        cases hsl : splitLast ':' ls with
        | none => simp [handleN, hsa, hsl] at hn
        | some pr =>
          obtain ⟨lip, lps⟩ := pr
          cases hsr : splitLast ':' rs with
          | none => simp [handleN, hsa, hsl, hsr] at hn
          | some pr2 =>
            obtain ⟨rip, rps⟩ := pr2
            cases hlv : pyInt ⟨lps⟩ with
            | error e =>
              simp [handleN, hsa, hsl, hsr, evalCond_none, buildRecord, hlv] at hn
            | ok lv =>
              cases hrv : pyInt ⟨rps⟩ with
              | error e =>
                simp [handleN, hsa, hsl, hsr, evalCond_none, buildRecord,
                  hlv, hrv] at hn
              | ok rv =>
                simp only [handleN, hsa, hsl, hsr, evalCond_none, buildRecord,
                  hlv, hrv, Except.ok.injEq, Option.some.injEq] at hn
                subst hn
                simp only [handleN, hsa, hsl, hsr]
                rw [evalCond_eq_matches la lp ra rp lip lps rip rps lv rv
                      pid fd uid hlv hrv]
                cases hm : matchesCrit la lp ra rp
                    ⟨⟨lip⟩, lv, ⟨rip⟩, rv, pid, fd, uid⟩
                · simp [hm]
                · simp [hm, buildRecord, hlv, hrv]

/-- The record filter commutes with the enumeration loop: if the no-criteria
run succeeds, the run with criteria succeeds and yields exactly the records
satisfying the record-level conjunction. Proved by induction over the lines
with the pid, fd and uid registers generalized, since the register evolution
does not depend on the criteria. -/
theorem goFind_filter (la : Option String) (lp : Option Int)
    (ra : Option String) (rp : Option Int) (lines : List (List Char)) :
    ∀ (pid fd uid : Option Int) (l : List ConnectionInfo),
      goFind none none none none pid fd uid lines = .ok l →
      goFind la lp ra rp pid fd uid lines
        = .ok (l.filter (fun r => matchesCrit la lp ra rp r)) := by
  induction lines with
  | nil =>
    intro pid fd uid l h
    simp only [goFind, Except.ok.injEq] at h
    subst h
    rfl
  | cons line rest ih =>
    intro pid fd uid l h
    simp only [goFind] at h ⊢
    by_cases hp : startsWith1 'p' line = true
    · rw [if_pos hp] at h ⊢
      cases hv : pyInt ⟨line.drop 1⟩ with
      | error e =>
        simp only [hv] at h
        exact Except.noConfusion h
      | ok v =>
        simp only [hv] at h ⊢
        exact ih (some v) fd uid l h
    · rw [if_neg hp] at h ⊢
      by_cases hf : startsWith1 'f' line = true
      · rw [if_pos hf] at h ⊢
        cases hv : pyInt ⟨line.drop 1⟩ with
        | error e =>
          simp only [hv] at h
          exact Except.noConfusion h
        | ok v =>
          simp only [hv] at h ⊢
          exact ih pid (some v) uid l h
      · rw [if_neg hf] at h ⊢
        by_cases hu : startsWith1 'u' line = true
        · rw [if_pos hu] at h ⊢
          cases hv : pyInt ⟨line.drop 1⟩ with
          | error e =>
            simp only [hv] at h
            exact Except.noConfusion h
          | ok v =>
            simp only [hv] at h ⊢
            exact ih pid fd (some v) l h
        · rw [if_neg hu] at h ⊢
          by_cases hnl : startsWith1 'n' line = true
          · rw [if_pos hnl] at h ⊢
            cases hN : handleN none none none none pid fd uid (line.drop 1) with
            | error e =>
              simp only [hN] at h
              exact Except.noConfusion h
            | ok o =>
              cases o with
              | none => exact absurd hN (handleN_none_not_none pid fd uid _)
              | some r =>
                simp only [hN] at h
                cases hg : goFind none none none none pid fd uid rest with
                | error e =>
                  simp only [hg] at h
                  exact Except.noConfusion h
                | ok l2 =>
                  simp only [hg, Except.ok.injEq] at h
                  subst h
                  rw [handleN_filter la lp ra rp pid fd uid (line.drop 1) r hN]
                  cases hm : matchesCrit la lp ra rp r
                  · simp [hm, ih pid fd uid l2 hg, List.filter_cons]
                  · simp [hm, ih pid fd uid l2 hg, List.filter_cons]
          · rw [if_neg hnl] at h ⊢
            exact ih pid fd uid l h

/-! Correspondence between the register loop and the rescan semantics. -/

theorem not_true_of_eq_false {b : Bool} (h : b = false) : ¬ b = true := by
  simp [h]

theorem startsWith1_cons_self (c : Char) (l : List Char) :
    startsWith1 c (c :: l) = true := by
  simp [startsWith1]

theorem startsWith1_cons_ne (c c' : Char) (l : List Char)
    (h : (c == c') = false) : startsWith1 c' (c :: l) = false := by
  simp only [startsWith1]
  exact h

theorem startsWith1_of_ne (a b : Char) (l : List Char) (hab : a ≠ b)
    (h : startsWith1 a l = true) : startsWith1 b l = false := by
  cases l with
  | nil => exact absurd h (by simp [startsWith1])
  | cons c cs =>
    simp only [startsWith1, beq_iff_eq] at h
    subst h
    simp only [startsWith1]
    exact beq_eq_false_iff_ne.mpr hab

theorem lastTagged_append_one (tag : Char) (seen : List (List Char))
    (line : List Char) :
    lastTagged tag (seen ++ [line])
      = if startsWith1 tag line then
          (match pyInt ⟨line.drop 1⟩ with
           | .ok v => some v
           | .error _ => lastTagged tag seen)
        else lastTagged tag seen := by
  unfold lastTagged
  rw [List.foldl_append]
  simp only [List.foldl_cons, List.foldl_nil]

/-- The enumeration loop agrees with the rescan semantics: starting from
registers equal to the latest tagged values of the lines already seen, a
well-formed remainder produces exactly the records of the rescan. -/
theorem goFind_carryover (lines : List (List Char)) :
    ∀ seen : List (List Char), wellFormed lines = true →
      goFind none none none none (lastTagged 'p' seen) (lastTagged 'f' seen)
        (lastTagged 'u' seen) lines = .ok (specRecAux seen lines) := by
  induction lines with
  | nil => intro seen _; rfl
  | cons line rest ih =>
    intro seen hwf
    simp only [wellFormed, List.all_cons, Bool.and_eq_true] at hwf
    obtain ⟨hwf1, hwf2⟩ := hwf
    simp only [goFind, specRecAux]
    by_cases hp : startsWith1 'p' line = true
    · unfold lineWF at hwf1
      rw [if_pos hp] at hwf1
      obtain ⟨v, hv⟩ : ∃ v, pyInt ⟨line.drop 1⟩ = .ok v := by
        cases hv : pyInt ⟨line.drop 1⟩ with
        | error e => rw [hv] at hwf1; exact absurd hwf1 (by simp [Except.isOk, Except.toBool])
        | ok v => exact ⟨v, rfl⟩
      rw [if_pos hp,
        if_neg (not_true_of_eq_false (startsWith1_of_ne 'p' 'n' line (by decide) hp))]
      simp only [hv]
      have e1 : lastTagged 'p' (seen ++ [line]) = some v := by
        rw [lastTagged_append_one, if_pos hp, hv]
      have e2 : lastTagged 'f' (seen ++ [line]) = lastTagged 'f' seen := by
        rw [lastTagged_append_one,
          if_neg (not_true_of_eq_false (startsWith1_of_ne 'p' 'f' line (by decide) hp))]
      have e3 : lastTagged 'u' (seen ++ [line]) = lastTagged 'u' seen := by
        rw [lastTagged_append_one,
          if_neg (not_true_of_eq_false (startsWith1_of_ne 'p' 'u' line (by decide) hp))]
      have hrec := ih (seen ++ [line]) hwf2
      rw [e1, e2, e3] at hrec
      exact hrec
    · rw [if_neg hp]
      by_cases hf : startsWith1 'f' line = true
      · unfold lineWF at hwf1
        rw [if_neg hp, if_pos hf] at hwf1
        obtain ⟨v, hv⟩ : ∃ v, pyInt ⟨line.drop 1⟩ = .ok v := by
          cases hv : pyInt ⟨line.drop 1⟩ with
          | error e => rw [hv] at hwf1; exact absurd hwf1 (by simp [Except.isOk, Except.toBool])
          | ok v => exact ⟨v, rfl⟩
        rw [if_pos hf,
          if_neg (not_true_of_eq_false (startsWith1_of_ne 'f' 'n' line (by decide) hf))]
        simp only [hv]
        have e1 : lastTagged 'p' (seen ++ [line]) = lastTagged 'p' seen := by
          rw [lastTagged_append_one,
            if_neg (not_true_of_eq_false (startsWith1_of_ne 'f' 'p' line (by decide) hf))]
        have e2 : lastTagged 'f' (seen ++ [line]) = some v := by
          rw [lastTagged_append_one, if_pos hf, hv]
        have e3 : lastTagged 'u' (seen ++ [line]) = lastTagged 'u' seen := by
          rw [lastTagged_append_one,
            if_neg (not_true_of_eq_false (startsWith1_of_ne 'f' 'u' line (by decide) hf))]
        have hrec := ih (seen ++ [line]) hwf2
        rw [e1, e2, e3] at hrec
        exact hrec
      · rw [if_neg hf]
        by_cases hu : startsWith1 'u' line = true
        · unfold lineWF at hwf1
          rw [if_neg hp, if_neg hf, if_pos hu] at hwf1
          obtain ⟨v, hv⟩ : ∃ v, pyInt ⟨line.drop 1⟩ = .ok v := by
            cases hv : pyInt ⟨line.drop 1⟩ with
            | error e => rw [hv] at hwf1; exact absurd hwf1 (by simp [Except.isOk, Except.toBool])
            | ok v => exact ⟨v, rfl⟩
          rw [if_pos hu,
            if_neg (not_true_of_eq_false (startsWith1_of_ne 'u' 'n' line (by decide) hu))]
          simp only [hv]
          have e1 : lastTagged 'p' (seen ++ [line]) = lastTagged 'p' seen := by
            rw [lastTagged_append_one,
              if_neg (not_true_of_eq_false (startsWith1_of_ne 'u' 'p' line (by decide) hu))]
          have e2 : lastTagged 'f' (seen ++ [line]) = lastTagged 'f' seen := by
            rw [lastTagged_append_one,
              if_neg (not_true_of_eq_false (startsWith1_of_ne 'u' 'f' line (by decide) hu))]
          have e3 : lastTagged 'u' (seen ++ [line]) = some v := by
            rw [lastTagged_append_one, if_pos hu, hv]
          have hrec := ih (seen ++ [line]) hwf2
          rw [e1, e2, e3] at hrec
          exact hrec
        · rw [if_neg hu]
          have e1 : lastTagged 'p' (seen ++ [line]) = lastTagged 'p' seen := by
            rw [lastTagged_append_one, if_neg hp]
          have e2 : lastTagged 'f' (seen ++ [line]) = lastTagged 'f' seen := by
            rw [lastTagged_append_one, if_neg hf]
          have e3 : lastTagged 'u' (seen ++ [line]) = lastTagged 'u' seen := by
            rw [lastTagged_append_one, if_neg hu]
          have hrec := ih (seen ++ [line]) hwf2
          rw [e1, e2, e3] at hrec
          by_cases hnl : startsWith1 'n' line = true
          · unfold lineWF at hwf1
            rw [if_neg hp, if_neg hf, if_neg hu, if_pos hnl] at hwf1
            obtain ⟨q, hq⟩ := Option.isSome_iff_exists.mp hwf1
            obtain ⟨lip, lv, rip, rv⟩ := q
            rw [if_pos hnl, if_pos hnl, handleN_none_eq]
            simp only [hq, hrec, List.singleton_append]
          · rw [if_neg hnl, if_neg hnl]
            exact hrec

/-! Claim theorems. -/

/-- C8: for every endpoint side of the form address-colon-port whose port part
contains no further colon, the parser splits at the LAST colon, so literal or
bracketed IPv6 addresses keep all their internal colons in the address part;
concretely, the enumerator parses a bracketed IPv6 endpoint line into the
correct address and port fields. -/
theorem endpoint_split_at_last_colon (a b : List Char) (h : ':' ∉ b) :
    splitLast ':' (a ++ ':' :: b) = some (a, b) ∧
    find_socket_fds none none none none
      ["p1", "f2", "u3", "n[::1]:8080->[2001:db8::1]:443"]
      = .ok [⟨"[::1]", 8080, "[2001:db8::1]", 443, some 1, some 2, some 3⟩] :=
  ⟨splitLast_append ':' a b h, rfl⟩

/-- Witness for C8 at the concrete side `[::1]:8080` from the spec. -/
theorem endpoint_split_at_sample :
    splitLast ':' ("[::1]".toList ++ ':' :: "8080".toList)
      = some ("[::1]".toList, "8080".toList) ∧
    find_socket_fds none none none none
      ["p1", "f2", "u3", "n[::1]:8080->[2001:db8::1]:443"]
      = .ok [⟨"[::1]", 8080, "[2001:db8::1]", 443, some 1, some 2, some 3⟩] :=
  endpoint_split_at_last_colon "[::1]".toList "8080".toList (by decide)

/-- C2: with the shutdown symbol resolved, the injected script returns the
native result unchanged, so a `-1` from `shutdown(sockfd, 2)` on an invalid
descriptor flows back as an ordinary RPC result and `_shutdown_sockfd`
completes without raising anything: a silent success, contradicting both the
claim and the docstring of `tcp_kill` (an unsuccessful run should raise). -/
theorem invalid_fd_silent_success :
    shutdownSocketScript true (fun _ _ => -1) (-1) = .ok (-1) ∧
    (runShutdown ⟨none, none,
        invokeOfScript (shutdownSocketScript true (fun _ _ => -1) (-1)),
        [], none⟩).2 = Outcome.success :=
  ⟨rfl, rfl⟩

/-- C3 counterexample: when `session.create_script` raises, the attach has
already happened but the `try`/`finally` was never entered, so no detach is
performed at all — refuting the claim that every path with a successful attach
detaches exactly once. -/
theorem create_script_raise_skips_detach :
    (runShutdown ⟨some "script creation failed", none, .ok 0, [], none⟩).1.count
        Event.attach = 1 ∧
    (runShutdown ⟨some "script creation failed", none, .ok 0, [], none⟩).1.count
        Event.detach = 0 :=
  ⟨rfl, rfl⟩

/-- C3 as amended: on every execution in which `session.create_script`
succeeds, exactly one detach is performed, including when loading the payload
or the remote invocation raises; the attach is also unique. -/
theorem detach_once_when_script_created (env : Env)
    (h : env.createScriptRaises = none) :
    (runShutdown env).1.count Event.attach = 1 ∧
    (runShutdown env).1.count Event.detach = 1 := by
  rcases env with ⟨cs, lr, ir, ms, dr⟩
  cases cs with
  | some m => simp at h
  | none =>
    cases lr with
    | some e => cases dr <;> exact ⟨rfl, rfl⟩
    | none =>
      cases ir with
      | error e => cases dr <;> exact ⟨rfl, rfl⟩
      | ok v => cases dr <;> exact ⟨rfl, rfl⟩

/-- Witness for the amended C3 on a concrete successful execution. -/
theorem detach_once_at_sample :
    (runShutdown ⟨none, none, Except.ok 0, [], none⟩).1.count Event.attach = 1 ∧
    (runShutdown ⟨none, none, Except.ok 0, [], none⟩).1.count Event.detach = 1 :=
  detach_once_when_script_created ⟨none, none, Except.ok 0, [], none⟩ rfl

/-- C4 counterexample: a non-empty enumeration whose first record has file
descriptor 0 is NOT selected; `if not sockfd:` treats the 0 descriptor as
missing and the operation fails with the not-found error instead of acting on
the first record. -/
theorem first_record_zero_fd_rejected :
    tcp_kill_resolve
      [⟨"10.0.0.1", 34567, "10.0.0.2", 443, some 42, some 0, some 7⟩] 0
      = .error "Socket not found for connection." := rfl

/-- C4 as amended: for every non-empty record list whose FIRST record has a
truthy file descriptor (neither `None` nor 0), the resolver returns that first
pid and fd of that record, regardless of the number and contents of the remaining
records; a first record with fd `None` or 0 instead fails with the not-found
error. -/
theorem resolve_first_when_fd_truthy (c : ConnectionInfo)
    (cs : List ConnectionInfo) (euid : Int) (h : pyTruthy c.fd = true) :
    tcp_kill_resolve (c :: cs) euid = .ok (c.pid, c.fd) := by
  simp [tcp_kill_resolve, h]

/-- Witness for the amended C4 on a three-element list. -/
theorem resolve_first_at_sample :
    tcp_kill_resolve
      [⟨"10.31.33.7", 50246, "93.184.216.34", 443, some 4242, some 7, some 0⟩,
       ⟨"10.0.0.3", 1, "10.0.0.4", 2, some 9, some 8, some 0⟩,
       ⟨"10.0.0.5", 3, "10.0.0.6", 4, some 11, some 12, some 0⟩] 1000
      = .ok (some 4242, some 7) :=
  resolve_first_when_fd_truthy
    ⟨"10.31.33.7", 50246, "93.184.216.34", 443, some 4242, some 7, some 0⟩
    [⟨"10.0.0.3", 1, "10.0.0.4", 2, some 9, some 8, some 0⟩,
     ⟨"10.0.0.5", 3, "10.0.0.6", 4, some 11, some 12, some 0⟩] 1000 rfl

/-- C6: on an empty enumeration the operation fails with the not-found error,
and the message text depends on the effective uid: the root hint is appended
exactly when the caller is not uid 0, so the two privilege levels produce
different messages. -/
theorem not_found_message_varies_with_euid (euid : Int) :
    tcp_kill_resolve [] euid
      = .error (if euid = 0 then "Socket not found for connection."
          else "Socket not found for connection. Try running as root.") ∧
    tcp_kill_resolve [] 1 ≠ tcp_kill_resolve [] 0 := by
  constructor
  · by_cases h : euid = 0
    · subst h; rfl
    · simp only [tcp_kill_resolve, if_neg h]
      rw [if_pos (by simpa [bne_iff_ne] using h : (euid != 0) = true)]
      rfl
  · intro h
    have := Except.error.inj h
    simp at this

/-- C7: a `frida.TransportError` whose text is exactly "the connection is
closed" is swallowed and, absent any relayed script error, `_shutdown_sockfd`
returns normally; a transport error with any other text is re-raised. -/
theorem benign_disconnect_swallowed (msgs : List Message) (dr : Option String)
    (m : String) (hmsg : lastJsError msgs = none)
    (hm : m ≠ "the connection is closed") :
    (runShutdown ⟨none, none, .error (.transport "the connection is closed"),
        msgs, dr⟩).2 = Outcome.success ∧
    (runShutdown ⟨none, none, .error (.transport m), msgs, dr⟩).2
      = Outcome.raisedTransport m := by
  constructor
  · simp [runShutdown, afterBody, hmsg]
  · simp [runShutdown, afterBody, bne_iff_ne, hm]

/-- Witness for C7 with a diagnostic send message and the text another
transport failure could carry. -/
theorem benign_disconnect_at_sample :
    (runShutdown ⟨none, none, .error (.transport "the connection is closed"),
        [Message.send "Calling shutdown(7, 2)"], none⟩).2 = Outcome.success ∧
    (runShutdown ⟨none, none, .error (.transport "connection reset"),
        [Message.send "Calling shutdown(7, 2)"], none⟩).2
      = Outcome.raisedTransport "connection reset" :=
  benign_disconnect_swallowed [Message.send "Calling shutdown(7, 2)"] none
    "connection reset" rfl (by decide)

/-- C10: whatever exception `session.detach()` raises, the bare
`except: pass` swallows it: the trace and the outcome of the whole operation
are identical to an execution in which detach raised nothing. -/
theorem detach_errors_swallowed (env : Env) (d : Option String) :
    runShutdown { env with detachRaises := d }
      = runShutdown { env with detachRaises := none } := by
  rcases env with ⟨cs, lr, ir, ms, dr⟩
  cases cs <;> cases lr <;> cases ir <;> cases d <;> rfl

/-- C1 counterexample: after the first record is emitted, a second endpoint
line arrives with NO intervening pid, fd or uid line, yet a second record is
emitted carrying the stale pid 1, fd 5 and uid 0 of the earlier record — the
accumulating registers are never reset at an emission. -/
theorem stale_fields_carried_over :
    find_socket_fds none none none none
      ["p1", "f5", "u0", "nA:1->B:2", "nC:3->D:4"]
      = .ok [⟨"A", 1, "B", 2, some 1, some 5, some 0⟩,
             ⟨"C", 3, "D", 4, some 1, some 5, some 0⟩] := rfl

/-- C5: enumeration with criteria equals the no-criteria enumeration filtered
by the record-level conjunction of the provided exact-match predicates, for
every combination of the four optional fields and every output on which the
no-criteria enumeration succeeds; with no criteria every parsed record is
emitted, so the filter over it is the identity. -/
theorem filter_conjunctive (la : Option String) (lp : Option Int)
    (ra : Option String) (rp : Option Int) (output : List String)
    (l : List ConnectionInfo)
    (h : find_socket_fds none none none none output = .ok l) :
    find_socket_fds la lp ra rp output
      = .ok (l.filter (fun r => matchesCrit la lp ra rp r)) :=
  goFind_filter la lp ra rp (output.map String.toList) none none none l h

/-- Witness for C5 on a concrete two-record output with a local-address
criterion. -/
theorem filter_conjunctive_at_sample :
    find_socket_fds (some "A") none none none
      ["p1", "f5", "u0", "nA:1->B:2", "nC:3->D:4"]
      = .ok (List.filter
          (fun r => matchesCrit (some "A") none none none r)
          [⟨"A", 1, "B", 2, some 1, some 5, some 0⟩,
           ⟨"C", 3, "D", 4, some 1, some 5, some 0⟩]) :=
  filter_conjunctive (some "A") none none none
    ["p1", "f5", "u0", "nA:1->B:2", "nC:3->D:4"]
    [⟨"A", 1, "B", 2, some 1, some 5, some 0⟩,
     ⟨"C", 3, "D", 4, some 1, some 5, some 0⟩] rfl

/-- C1 as amended: on every well-formed inventory output the enumerator emits
one record per endpoint-pair line, whose pid, fd and uid are the most recently
observed tagged values anywhere earlier in the stream — `None` when never
observed, and carried over across previous emissions rather than reset — and
the emitted records appear in emission order. -/
theorem emit_carryover (output : List String)
    (h : wellFormedOutput output = true) :
    find_socket_fds none none none none output
      = .ok (specEmitCarryover output) :=
  goFind_carryover (output.map String.toList) [] h

/-- Witness for the amended C1 on a stream whose second endpoint line reuses
the carried-over registers. -/
theorem emit_carryover_at_sample :
    wellFormedOutput ["p8", "f6", "u4", "nE:1->F:2", "nG:3->H:4"] = true ∧
    find_socket_fds none none none none
      ["p8", "f6", "u4", "nE:1->F:2", "nG:3->H:4"]
      = .ok (specEmitCarryover ["p8", "f6", "u4", "nE:1->F:2", "nG:3->H:4"]) :=
  ⟨by decide,
   emit_carryover ["p8", "f6", "u4", "nE:1->F:2", "nG:3->H:4"] (by decide)⟩

/-- C9 counterexample: the enumerator performs no range check and no
canonicalization: an inventory line with ports 70000 and 99999 and the
leading-zero address 010.0.0.1 produces a record holding exactly those
out-of-range ports and the non-canonical address text verbatim. -/
theorem record_violates_port_range :
    find_socket_fds none none none none
      ["p1", "f5", "u0", "n010.0.0.1:70000->[::1]:99999"]
      = .ok [⟨"010.0.0.1", 70000, "[::1]", 99999, some 1, some 5, some 0⟩] ∧
    ¬ ((70000 : Int) ≤ 65535 ∧ (99999 : Int) ≤ 65535) :=
  ⟨rfl, by decide⟩

/-- C9 as amended: enumeration applies no canonicalization and no range
check — whatever address text and port integer the endpoint line carries are
stored verbatim in the record, for every address text (without a dash, so the
arrow split is unique) and every port string parsing to any integer
whatsoever. The `canonicalize_ip_address` helper of the source is never
invoked by the enumerator. -/
theorem fields_stored_verbatim (a ps b qs : String) (p q : Int)
    (hp : pyInt ps = .ok p) (hq : pyInt qs = .ok q)
    (ha : '-' ∉ a.toList) (hb : '-' ∉ b.toList)
    (hps1 : '-' ∉ ps.toList) (hps2 : ':' ∉ ps.toList)
    (hqs1 : '-' ∉ qs.toList) (hqs2 : ':' ∉ qs.toList) :
    find_socket_fds none none none none
      ["p7", "f3", "u9", "n" ++ a ++ ":" ++ ps ++ "->" ++ b ++ ":" ++ qs]
      = .ok [⟨a, p, b, q, some 7, some 3, some 9⟩] := by
  have hu : '-' ∉ (a.toList ++ ':' :: ps.toList) := by
    intro hmem
    rcases List.mem_append.mp hmem with h1 | h2
    · exact ha h1
    · rcases List.mem_cons.mp h2 with h3 | h4
      · exact absurd h3 (by decide)
      · exact hps1 h4
  have hv : '-' ∉ (b.toList ++ ':' :: qs.toList) := by
    intro hmem
    rcases List.mem_append.mp hmem with h1 | h2
    · exact hb h1
    · rcases List.mem_cons.mp h2 with h3 | h4
      · exact absurd h3 (by decide)
      · exact hqs1 h4
  have hp2 : pyInt (⟨ps.toList⟩ : String) = .ok p := hp
  have hq2 : pyInt (⟨qs.toList⟩ : String) = .ok q := hq
  have hT : ("n" ++ a ++ ":" ++ ps ++ "->" ++ b ++ ":" ++ qs).toList
      = 'n' :: ((a.toList ++ ':' :: ps.toList) ++
          ('-' :: '>' :: (b.toList ++ ':' :: qs.toList))) := by
    show (((((((("n" : String) ++ a) ++ ":") ++ ps) ++ "->") ++ b) ++ ":") ++ qs).data
        = 'n' :: ((a.data ++ ':' :: ps.data) ++
            ('-' :: '>' :: (b.data ++ ':' :: qs.data)))
    simp
  simp only [find_socket_fds, List.map_cons, List.map_nil, hT]
  rw [show ∀ ls, goFind none none none none none none none
        ("p7".toList :: "f3".toList :: "u9".toList :: ls)
        = goFind none none none none (some 7) (some 3) (some 9) ls
      from fun ls => rfl]
  simp only [goFind]
  rw [if_neg (not_true_of_eq_false (startsWith1_cons_ne 'n' 'p' _ (by decide))),
      if_neg (not_true_of_eq_false (startsWith1_cons_ne 'n' 'f' _ (by decide))),
      if_neg (not_true_of_eq_false (startsWith1_cons_ne 'n' 'u' _ (by decide))),
      if_pos (startsWith1_cons_self 'n' _)]
  simp only [List.drop_one, List.tail_cons]
  rw [handleN_none_eq]
  simp only [parseEndpoint,
    splitArrow_append (a.toList ++ ':' :: ps.toList)
      (b.toList ++ ':' :: qs.toList) hu hv,
    splitLast_append ':' a.toList ps.toList hps2,
    splitLast_append ':' b.toList qs.toList hqs2, hp2, hq2]
  rfl

/-- Witness for the amended C9: a leading-zero address, an uncompressed IPv6
address, and out-of-range ports are all stored verbatim. -/
theorem fields_stored_verbatim_at_sample :
    find_socket_fds none none none none
      ["p7", "f3", "u9",
       "n" ++ "010.0.0.1" ++ ":" ++ "70000" ++ "->" ++
         "0:0:0:0:0:0:0:1" ++ ":" ++ "99999"]
      = .ok [⟨"010.0.0.1", 70000, "0:0:0:0:0:0:0:1", 99999,
              some 7, some 3, some 9⟩] :=
  fields_stored_verbatim "010.0.0.1" "70000" "0:0:0:0:0:0:0:1" "99999"
    70000 99999 rfl rfl (by decide) (by decide) (by decide) (by decide)
    (by decide) (by decide)

end TcpKiller
